import Mathlib

/-!
Verification development for the Self-Improving Prompt Optimization API.

The repository's TypeScript sources (`src/src/lib/api-client.ts` and the
Next.js pages/components) declare the API contracts; the FastAPI backend
(`app/services/evaluation_service.py`, `app/services/improvement_service.py`,
`app/utils/validators.py`, `app/utils/diff_utils.py`) is described by the
spec and `backend/README.md` but its code is not in the repository, so the
corresponding components are modelled from the spec below, each marked
`Modelled from the spec:` in its doc comment.  The `fetchApi` error contract
is embedded directly from `src/src/lib/api-client.ts`.

Scores are modelled as rationals (`Rat`); machine floating point is not
load-bearing for any of the claims treated here.
-/

namespace PromptOps

/-! ## Promotion Arbiter (spec §4.6), modelled from the spec -/

/-- Modelled from the spec: the five aggregate dimension scores of an
`EvaluationRun` (spec §3, §4.3).  The backend file
`app/services/evaluation_service.py` is not in the repository. -/
structure DimScores where
  correctness : Rat
  format : Rat
  verbosity : Rat
  safety : Rat
  consistency : Rat
  deriving Repr, DecidableEq

/-- Modelled from the spec: the view of an `EvaluationRun` that the
Promotion Arbiter consumes for one prompt version — its overall score,
format pass rate and per-dimension aggregate scores (spec §3, §4.6). -/
structure EvalSummary where
  overall_score : Rat
  format_pass_rate : Rat
  dims : DimScores
  deriving Repr, DecidableEq

/-- Modelled from the spec: the explicit promotion-policy configuration
(spec §4.6; defaults documented in `backend/README.md`). -/
structure PolicyConfig where
  improvement_threshold : Rat
  min_format_pass_rate : Rat
  regression_guardrail : Rat
  deriving Repr, DecidableEq

/-- The `promotion_decision` enumeration of `ImprovementResponse`
(`src/src/lib/api-client.ts` line 171). -/
inductive PromotionDecision where
  | promoted
  | rejected
  | pending
  deriving Repr, DecidableEq

/-- The `ImprovementRun` record (spec §3; `ImprovementResponse` in
`src/src/lib/api-client.ts` lines 161-174, persistence fields omitted). -/
structure ImprovementRun where
  baseline_score : Rat
  candidates_generated : Nat
  candidates_evaluated : Nat
  best_candidate_score : Option Rat
  improvement_delta : Option Rat
  promotion_decision : PromotionDecision
  promotion_reason : String
  deriving Repr, DecidableEq

/-- Modelled from the spec: `best = argmax(candidate.overall_score)` with
ties broken by the earliest generated candidate (spec §4.6 step 2). -/
def bestCandidate : List EvalSummary → Option EvalSummary
  | [] => none
  | c :: cs =>
    match bestCandidate cs with
    | none => some c
    | some b => if c.overall_score < b.overall_score then some b else some c

/-- Modelled from the spec: the per-dimension regression test of
spec §4.6 step 6 — the names of the dimensions of `best` that regressed
versus `baseline` by more than `g`. -/
def regressedDims (baseline best : DimScores) (g : Rat) : List String :=
  (if g < baseline.correctness - best.correctness then ["correctness"] else []) ++
  (if g < baseline.format - best.format then ["format"] else []) ++
  (if g < baseline.verbosity - best.verbosity then ["verbosity"] else []) ++
  (if g < baseline.safety - best.safety then ["safety"] else []) ++
  (if g < baseline.consistency - best.consistency then ["consistency"] else [])

/-- Modelled from the spec: the Promotion Arbiter's decision policy,
evaluated in order (spec §4.6 steps 1-7).  The backend file
`app/services/improvement_service.py` is not in the repository.
`generated` is the number of candidates actually produced by the
Candidate Generator; `cands` are the successfully evaluated candidates.
The function is total: every outcome, including the no-viable-candidate
case, is an ordinary `ImprovementRun` value, never an exception (spec §7). -/
def decideImprovement (cfg : PolicyConfig) (baseline : EvalSummary)
    (generated : Nat) (cands : List EvalSummary) : ImprovementRun :=
  match bestCandidate cands with
  | none =>
    { baseline_score := baseline.overall_score
      candidates_generated := generated
      candidates_evaluated := cands.length
      best_candidate_score := none
      improvement_delta := none
      promotion_decision := .rejected
      promotion_reason := "no viable candidate" }
  | some best =>
    let delta := best.overall_score - baseline.overall_score
    if delta < cfg.improvement_threshold then
      { baseline_score := baseline.overall_score
        candidates_generated := generated
        candidates_evaluated := cands.length
        best_candidate_score := some best.overall_score
        improvement_delta := some delta
        promotion_decision := .rejected
        promotion_reason :=
          "improvement delta " ++ toString delta ++ " below threshold " ++
            toString cfg.improvement_threshold }
    else if best.format_pass_rate < cfg.min_format_pass_rate then
      { baseline_score := baseline.overall_score
        candidates_generated := generated
        candidates_evaluated := cands.length
        best_candidate_score := some best.overall_score
        improvement_delta := some delta
        promotion_decision := .rejected
        promotion_reason :=
          "format pass rate " ++ toString best.format_pass_rate ++
            " below minimum " ++ toString cfg.min_format_pass_rate }
    else if (regressedDims baseline.dims best.dims cfg.regression_guardrail) ≠ [] then
      { baseline_score := baseline.overall_score
        candidates_generated := generated
        candidates_evaluated := cands.length
        best_candidate_score := some best.overall_score
        improvement_delta := some delta
        promotion_decision := .rejected
        promotion_reason :=
          "regression beyond guardrail in: " ++
            String.intercalate ", "
              (regressedDims baseline.dims best.dims cfg.regression_guardrail) }
    else
      { baseline_score := baseline.overall_score
        candidates_generated := generated
        candidates_evaluated := cands.length
        best_candidate_score := some best.overall_score
        improvement_delta := some delta
        promotion_decision := .promoted
        promotion_reason :=
          "improvement delta " ++ toString delta ++ " meets threshold " ++
            toString cfg.improvement_threshold ++ ", format pass rate " ++
            toString best.format_pass_rate ++ ", no dimension regression" }

/-! ## Prompt version store (spec §3, §4.6 step 7, §5), modelled from the spec -/

/-- The `status` enumeration of a PromptVersion
(`src/src/lib/api-client.ts` lines 60, 72, 95). -/
inductive VersionStatus where
  | draft
  | active
  | archived
  deriving Repr, DecidableEq

/-- The persisted `PromptVersion` artifact (spec §3; `PromptResponse` in
`src/src/lib/api-client.ts` lines 63-75, timestamps and schemas omitted). -/
structure PromptVersion where
  id : Nat
  name : String
  version : String
  template_text : String
  parent_version_id : Option Nat
  status : VersionStatus
  deriving Repr, DecidableEq

/-- The persistence collaborator's store of prompt versions (spec §6). -/
abbrev PromptStore := List PromptVersion

/-- Modelled from the spec: the atomic active-version swap of spec §4.6
step 7 / §5 — in one step, the candidate version `cid` of prompt `nm` is
flipped to `active` and every other previously `active` version of the same
name is archived.  The backend file `app/services/prompt_service.py` is not
in the repository. -/
def promoteSwap (s : PromptStore) (nm : String) (cid : Nat) : PromptStore :=
  s.map fun pv =>
    if pv.name = nm then
      if pv.id = cid then { pv with status := VersionStatus.active }
      else if pv.status = VersionStatus.active then
        { pv with status := VersionStatus.archived }
      else pv
    else pv

/-- Modelled from the spec: the stores reachable from an empty store through
the legal operations — creation of a new version (spec §3: versions are born
`draft`, with a fresh id; even though the HTTP request schema `PromptCreate`
in `src/src/lib/api-client.ts` lines 52-61 carries an optional `status`
field, the spec's invariant and status-transition rules make `draft` the
only legal birth status) and the atomic promotion swap. -/
inductive Reachable : PromptStore → Prop
  | init : Reachable []
  | create (s : PromptStore) (pv : PromptVersion) :
      Reachable s → pv.status = VersionStatus.draft →
      (∀ q ∈ s, q.id ≠ pv.id) → Reachable (pv :: s)
  | promote (s : PromptStore) (nm : String) (cid : Nat) :
      Reachable s → Reachable (promoteSwap s nm cid)

/-- The number of `active` versions recorded for prompt `nm`. -/
def activeCount (s : PromptStore) (nm : String) : Nat :=
  s.countP fun pv =>
    decide (pv.name = nm ∧ pv.status = VersionStatus.active)

/-! ## JSON values and parsing

Shared by the Format Validator model (spec §4.1; `app/utils/validators.py`
is not in the repository) and by the `fetchApi` embedding
(`src/src/lib/api-client.ts`), both of which parse JSON bodies. -/

/-- A JSON value (numbers restricted to integers; fractional literals are
not needed by any claim treated here). -/
inductive Json where
  | null
  | bool (b : Bool)
  | num (n : Int)
  | str (s : String)
  | arr (elems : List Json)
  | obj (fields : List (String × Json))
  deriving Repr, BEq, Inhabited

/-- JSON insignificant whitespace. -/
def isJsonWs (c : Char) : Bool :=
  c == ' ' || c == '\n' || c == '\t' || c == '\r'

/-- Drop leading JSON whitespace. -/
def skipWs (cs : List Char) : List Char :=
  cs.dropWhile isJsonWs

/-- Consume an expected literal character sequence. -/
def expectChars : List Char → List Char → Option (List Char)
  | [], cs => some cs
  | _ :: _, [] => none
  | k :: ks, c :: cs => if c == k then expectChars ks cs else none

/-- Parse the remainder of a JSON string literal (after the opening quote),
returning its characters and the rest of the input.  A backslash escapes the
following character; `n`, `t`, `r` map to their control characters. -/
def parseStrRest : Nat → List Char → Option (List Char × List Char)
  | 0, _ => none
  | _, [] => none
  | fuel + 1, c :: rest =>
    if c == Char.ofNat 34 then some ([], rest)
    else if c == Char.ofNat 92 then
      match rest with
      | [] => none
      | e :: rest2 =>
        let ch : Char :=
          if e == 'n' then '\n' else if e == 't' then '\t'
          else if e == 'r' then '\r' else e
        match parseStrRest fuel rest2 with
        | some (content, rest3) => some (ch :: content, rest3)
        | none => none
    else
      match parseStrRest fuel rest with
      | some (content, rest2) => some (c :: content, rest2)
      | none => none

/-- Digits of a decimal literal, interpreted as a natural number. -/
def digitsToNat (ds : List Char) : Nat :=
  ds.foldl (fun a c => a * 10 + (c.toNat - 48)) 0

/-- Parse a JSON integer literal (optional minus sign, one or more digits). -/
def parseNumberFrom (cs : List Char) : Option (Json × List Char) :=
  let (sign, cs2) : Int × List Char :=
    match cs with
    | c :: rest => if c == '-' then (-1, rest) else (1, cs)
    | [] => (1, [])
  let ds := cs2.takeWhile (·.isDigit)
  let rest := cs2.dropWhile (·.isDigit)
  if ds.isEmpty then none
  else some (Json.num (sign * (digitsToNat ds : Int)), rest)

mutual

/-- Recursive-descent parser for one JSON value; fuel bounds recursion
depth.  Returns the value and the unconsumed input, `none` on malformed
input. -/
def parseValue : Nat → List Char → Option (Json × List Char)
  | 0, _ => none
  | fuel + 1, cs =>
    match skipWs cs with
    | [] => none
    | c :: rest =>
      if c == 'n' then
        match expectChars ['u', 'l', 'l'] rest with
        | some rest2 => some (Json.null, rest2)
        | none => none
      else if c == 't' then
        match expectChars ['r', 'u', 'e'] rest with
        | some rest2 => some (Json.bool true, rest2)
        | none => none
      else if c == 'f' then
        match expectChars ['a', 'l', 's', 'e'] rest with
        | some rest2 => some (Json.bool false, rest2)
        | none => none
      else if c == Char.ofNat 34 then
        match parseStrRest fuel rest with
        | some (content, rest2) => some (Json.str (String.mk content), rest2)
        | none => none
      else if c == Char.ofNat 123 then
        match parseObjFields fuel rest with
        | some (fields, rest2) => some (Json.obj fields, rest2)
        | none => none
      else if c == '[' then
        match parseArrItems fuel rest with
        | some (elems, rest2) => some (Json.arr elems, rest2)
        | none => none
      else parseNumberFrom (c :: rest)

/-- Parse object members up to and including the closing brace. -/
def parseObjFields : Nat → List Char → Option (List (String × Json) × List Char)
  | 0, _ => none
  | fuel + 1, cs =>
    match skipWs cs with
    | [] => none
    | c :: rest =>
      if c == Char.ofNat 125 then some ([], rest)
      else if c == Char.ofNat 34 then
        match parseStrRest fuel rest with
        | some (key, rest2) =>
          match skipWs rest2 with
          | c2 :: rest3 =>
            if c2 == ':' then
              match parseValue fuel rest3 with
              | some (v, rest4) =>
                match skipWs rest4 with
                | c3 :: rest5 =>
                  if c3 == ',' then
                    match parseObjFields fuel rest5 with
                    | some (fields, rest6) =>
                      some ((String.mk key, v) :: fields, rest6)
                    | none => none
                  else if c3 == Char.ofNat 125 then
                    some ([(String.mk key, v)], rest5)
                  else none
                | [] => none
              | none => none
            else none
          | [] => none
        | none => none
      else none

/-- Parse array items up to and including the closing bracket. -/
def parseArrItems : Nat → List Char → Option (List Json × List Char)
  | 0, _ => none
  | fuel + 1, cs =>
    match skipWs cs with
    | [] => none
    | c :: rest =>
      if c == ']' then some ([], rest)
      else
        match parseValue fuel (c :: rest) with
        | some (v, rest2) =>
          match skipWs rest2 with
          | c2 :: rest3 =>
            if c2 == ',' then
              match parseArrItems fuel rest3 with
              | some (vs, rest4) => some (v :: vs, rest4)
              | none => none
            else if c2 == ']' then some ([v], rest3)
            else none
          | [] => none
        | none => none

end

/-- Parse a complete JSON document: one value followed only by whitespace.
`none` models a JSON parse failure (`json.JSONDecodeError` /
`SyntaxError`).  Total: never raises. -/
def parseJson (s : String) : Option Json :=
  match parseValue (s.length + 2) s.toList with
  | some (j, rest) => if (skipWs rest).isEmpty then some j else none
  | none => none

/-- Look up an object member by key (first occurrence wins). -/
def lookupField (fields : List (String × Json)) (k : String) : Option Json :=
  (fields.find? fun p => p.1 == k).map Prod.snd

/-! ## Format Validator (spec §4.1), modelled from the spec -/

/-- A JSON schema `type` name. -/
inductive SchemaType where
  | object
  | array
  | string
  | number
  | boolean
  | nullType
  deriving Repr, DecidableEq

/-- The schema type of a JSON value. -/
def typeOf : Json → SchemaType
  | Json.null => SchemaType.nullType
  | Json.bool _ => SchemaType.boolean
  | Json.num _ => SchemaType.number
  | Json.str _ => SchemaType.string
  | Json.arr _ => SchemaType.array
  | Json.obj _ => SchemaType.object

/-- Modelled from the spec: the checks of `output_schema` named in spec §4.1
— type, required, per-property type, enum membership, numeric range
(`app/utils/validators.py` is not in the repository; properties one level
deep, as in the README's example schemas). -/
structure OutputSchema where
  schemaType : Option SchemaType
  required : List String
  properties : List (String × SchemaType)
  enumVals : Option (List Json)
  minimum : Option Int
  maximum : Option Int
  deriving Repr

/-- Modelled from the spec: the declared length constraints of spec §4.1,
applied to the raw output text. -/
structure OutputConstraints where
  minLength : Option Nat
  maxLength : Option Nat
  deriving Repr, DecidableEq

/-- The first error among a list of optional errors. -/
def firstSome : List (Option String) → Option String
  | [] => none
  | some e :: _ => some e
  | none :: rest => firstSome rest

/-- Type conformance check. -/
def checkType (t : Option SchemaType) (j : Json) : Option String :=
  match t with
  | none => none
  | some t0 => if typeOf j = t0 then none else some "type mismatch"

/-- Required-property check. -/
def checkRequired (req : List String) (j : Json) : Option String :=
  match j with
  | Json.obj fields =>
    match req.find? fun k => (lookupField fields k).isNone with
    | some k => some ("missing required property: " ++ k)
    | none => none
  | _ => if req.isEmpty then none else some "required properties on non-object"

/-- Per-property type check. -/
def checkProperties (props : List (String × SchemaType)) (j : Json) : Option String :=
  match j with
  | Json.obj fields =>
    match props.find? fun p =>
        match lookupField fields p.1 with
        | some v => decide (¬ typeOf v = p.2)
        | none => false with
    | some p => some ("property type mismatch: " ++ p.1)
    | none => none
  | _ => none

/-- Enum-membership check. -/
def checkEnum (vals : Option (List Json)) (j : Json) : Option String :=
  match vals with
  | none => none
  | some vs => if vs.any (· == j) then none else some "value not in enum"

/-- Numeric range check. -/
def checkRange (lo hi : Option Int) (j : Json) : Option String :=
  match j with
  | Json.num n =>
    if (match lo with | some l => decide (n < l) | none => false) then
      some "value below minimum"
    else if (match hi with | some u => decide (u < n) | none => false) then
      some "value above maximum"
    else none
  | _ => none

/-- All structural checks of a schema against a parsed value. -/
def checkSchema (sch : OutputSchema) (j : Json) : Option String :=
  firstSome
    [checkType sch.schemaType j,
     checkRequired sch.required j,
     checkProperties sch.properties j,
     checkEnum sch.enumVals j,
     checkRange sch.minimum sch.maximum j]

/-- Declared length-constraint checks on the raw output text. -/
def checkConstraints (cons : Option OutputConstraints) (raw : String) : Option String :=
  match cons with
  | none => none
  | some c =>
    if (match c.minLength with | some m => decide (raw.length < m) | none => false) then
      some "output shorter than minLength"
    else if (match c.maxLength with | some m => decide (m < raw.length) | none => false) then
      some "output longer than maxLength"
    else none

/-- Modelled from the spec: the Format Validator contract
`validate(actual_output, output_schema?, constraints?) -> (passed, error?)`
(spec §4.1; `app/utils/validators.py` is not in the repository).  Pure and
total: malformed JSON yields `(false, some parseError)`, never an
exception; an absent `output_schema` always yields `(true, none)`. -/
def validate (actual_output : String) (output_schema : Option OutputSchema)
    (constraints : Option OutputConstraints) : Bool × Option String :=
  match output_schema with
  | none => (true, none)
  | some sch =>
    match parseJson actual_output with
    | none => (false, some ("malformed JSON in actual_output: " ++ actual_output))
    | some j =>
      match firstSome [checkSchema sch j, checkConstraints constraints actual_output] with
      | some e => (false, some e)
      | none => (true, none)

/-! ## Evaluation Runner (spec §4.3), modelled from the spec -/

/-- Modelled from the spec: the fixed pass threshold of spec §4.3 — "a
fixed policy constant, not user-configurable per call".  The numeric value
is not recorded anywhere in the repository; 0.7 is used here. -/
def pass_threshold : Rat := 7/10

/-- One dataset test case (spec §3; `src/src/lib/api-client.ts`
lines 104-108, inputs abstracted to strings). -/
structure DatasetEntry where
  input_data : String
  expected_output : Option String
  rubric : Option String
  deriving Repr, DecidableEq

/-- Modelled from the spec: a successful Judge response (spec §4.2).  The
Judge is blinded by signature: no prompt identity or candidate index occurs
anywhere in this type or in the judge's argument list. -/
structure JudgeScores where
  correctness : Rat
  format : Rat
  verbosity : Rat
  safety : Rat
  consistency : Rat
  overall : Rat
  feedback : String
  deriving Repr, DecidableEq

/-- Per-entry outcome (spec §3; `EvaluationResultResponse` in
`src/src/lib/api-client.ts` lines 113-129). -/
structure EvaluationResult where
  input_data : String
  actual_output : Option String
  correctness_score : Option Rat
  format_score : Option Rat
  verbosity_score : Option Rat
  safety_score : Option Rat
  consistency_score : Option Rat
  overall_score : Option Rat
  passed_format_validation : Bool
  format_validation_error : Option String
  judge_feedback : Option String
  passed : Bool
  failure_reason : Option String
  deriving Repr, DecidableEq

/-- Does an optional per-entry overall score meet the fixed pass
threshold?  An absent score never passes. -/
def meetsPassThreshold : Option Rat → Bool
  | some o => decide (pass_threshold ≤ o)
  | none => false

/-- Modelled from the spec: evaluation of one dataset entry (spec §4.3),
with the external collaborators of spec §6 passed as functions: `exec` is
the fallible Model-Execution collaborator, `judge` the fallible
Judge-Backend collaborator (blinded: it receives only input, output,
expected output and rubric).  Execution failure is captured per entry as
`failure_reason="execution_error"`; judge failure as
`failure_reason="judge_unavailable"` with all five dimension scores
absent; neither aborts anything (the function is total).  When
`output_schema` is absent the format dimension is not applicable (spec
§4.1) and `format_score` is absent.  `passed` is derived — this function
is the only constructor of `EvaluationResult` used by the runner. -/
def evalEntry (exec : String → Option String)
    (judge : String → String → Option String → Option String → Option JudgeScores)
    (output_schema : Option OutputSchema) (constraints : Option OutputConstraints)
    (e : DatasetEntry) : EvaluationResult :=
  match exec e.input_data with
  | none =>
    { input_data := e.input_data, actual_output := none,
      correctness_score := none, format_score := none, verbosity_score := none,
      safety_score := none, consistency_score := none, overall_score := none,
      passed_format_validation := false, format_validation_error := none,
      judge_feedback := none, passed := false,
      failure_reason := some "execution_error" }
  | some out =>
    let v := validate out output_schema constraints
    match judge e.input_data out e.expected_output e.rubric with
    | none =>
      { input_data := e.input_data, actual_output := some out,
        correctness_score := none, format_score := none, verbosity_score := none,
        safety_score := none, consistency_score := none, overall_score := none,
        passed_format_validation := v.1, format_validation_error := v.2,
        judge_feedback := none, passed := false,
        failure_reason := some "judge_unavailable" }
    | some js =>
      { input_data := e.input_data, actual_output := some out,
        correctness_score := some js.correctness,
        format_score := if output_schema.isSome then some js.format else none,
        verbosity_score := some js.verbosity,
        safety_score := some js.safety,
        consistency_score := some js.consistency,
        overall_score := some js.overall,
        passed_format_validation := v.1, format_validation_error := v.2,
        judge_feedback := some js.feedback,
        passed := v.1 && meetsPassThreshold (some js.overall),
        failure_reason :=
          if v.1 && meetsPassThreshold (some js.overall) then none
          else if v.1 then some "below pass threshold"
          else some "format validation failed" }

/-- Mean of the present values of a list of optional scores; absent when
no value is present. -/
def meanOfSome (xs : List (Option Rat)) : Option Rat :=
  let vs := xs.filterMap id
  if vs.isEmpty then none else some (vs.sum / (vs.length : Rat))

/-- The run-level aggregate of one dimension: the mean over entries that
produced a non-absent value for it (spec §4.3). -/
def dimAggregate (rs : List EvaluationResult) (f : EvaluationResult → Option Rat) :
    Option Rat :=
  meanOfSome (rs.map f)

/-- The run-level `overall_score`: the mean of the contributing dimension
aggregates — a dimension absent for all entries carries zero weight, not a
zero score (spec §4.1, §4.3). -/
def overallFromDims (dims : List (Option Rat)) : Rat :=
  let vs := dims.filterMap id
  if vs.isEmpty then 0 else vs.sum / (vs.length : Rat)

/-- The run-level aggregate (spec §3; `EvaluationResponse` in
`src/src/lib/api-client.ts` lines 131-152, persistence fields omitted).
A dimension aggregate absent for all entries is reported as 0 (spec §4.3). -/
structure EvaluationRun where
  total_examples : Nat
  passed_examples : Nat
  failed_examples : Nat
  format_pass_rate : Rat
  correctness_score : Rat
  format_score : Rat
  verbosity_score : Rat
  safety_score : Rat
  consistency_score : Rat
  overall_score : Rat
  failure_cases : List EvaluationResult
  results : List EvaluationResult
  deriving Repr, DecidableEq

/-- Modelled from the spec: the Evaluation Runner
`run(prompt_version, entries[]) -> EvaluationRun` (spec §4.3;
`app/services/evaluation_service.py` is not in the repository).  Every
entry contributes exactly one `EvaluationResult`; per-entry failures are
recorded, never propagated.  `failure_cases` samples the first 10 failed
entries. -/
def runEval (exec : String → Option String)
    (judge : String → String → Option String → Option String → Option JudgeScores)
    (output_schema : Option OutputSchema) (constraints : Option OutputConstraints)
    (entries : List DatasetEntry) : EvaluationRun :=
  let rs := entries.map (evalEntry exec judge output_schema constraints)
  { total_examples := rs.length
    passed_examples := rs.countP (·.passed)
    failed_examples := rs.countP fun r => !r.passed
    format_pass_rate :=
      if rs.isEmpty then 0
      else ((rs.countP (·.passed_format_validation) : Rat)) / (rs.length : Rat)
    correctness_score := (dimAggregate rs (·.correctness_score)).getD 0
    format_score := (dimAggregate rs (·.format_score)).getD 0
    verbosity_score := (dimAggregate rs (·.verbosity_score)).getD 0
    safety_score := (dimAggregate rs (·.safety_score)).getD 0
    consistency_score := (dimAggregate rs (·.consistency_score)).getD 0
    overall_score :=
      overallFromDims
        [dimAggregate rs (·.correctness_score),
         dimAggregate rs (·.format_score),
         dimAggregate rs (·.verbosity_score),
         dimAggregate rs (·.safety_score),
         dimAggregate rs (·.consistency_score)]
    failure_cases := (rs.filter fun r => !r.passed).take 10
    results := rs }

/-! ## Diff view (spec §3), modelled from the spec -/

/-- The derived Diff view (spec §3; `PromptDiffResponse` in
`src/src/lib/api-client.ts` lines 199-206). -/
structure PromptDiff where
  version_a : String
  version_b : String
  diff_text : String
  changes_summary : String
  added_lines : List String
  removed_lines : List String
  deriving Repr, DecidableEq

/-- The lines of a template text. -/
def textLines (s : String) : List String :=
  s.splitOn "\n"

/-- Modelled from the spec: `diff(a, b)` computed on demand between two
PromptVersion template texts (spec §3; `app/utils/diff_utils.py` is not in
the repository).  `removed_lines` are the lines of `a` that do not occur in
`b`; `added_lines` the lines of `b` that do not occur in `a`. -/
def computeDiff (a b : PromptVersion) : PromptDiff :=
  let la := textLines a.template_text
  let lb := textLines b.template_text
  let removed := la.filter fun l => !lb.contains l
  let added := lb.filter fun l => !la.contains l
  { version_a := a.version
    version_b := b.version
    diff_text :=
      String.intercalate "\n"
        ((removed.map fun l => "- " ++ l) ++ (added.map fun l => "+ " ++ l))
    changes_summary :=
      toString removed.length ++ " lines removed, " ++
        toString added.length ++ " lines added"
    added_lines := added
    removed_lines := removed }

/-! ## `fetchApi` (embedded from `src/src/lib/api-client.ts` lines 8-49)

The embedding needs the exact behaviour of `JSON.parse` and of JavaScript
member access, truthiness and string coercion, so the values produced by
`JSON.parse` get their own model here (`JsValue`/`jsonParse`), separate
from the spec-modelled Format Validator's JSON above.  Two inherent limits
of a float-free, Lean-string embedding are noted where they occur and are
not load-bearing for any claim: number literals are kept as exact decimals
(no double rounding, overflow or underflow), and lone UTF-16 surrogates —
unrepresentable in Lean strings — are replaced by U+FFFD. -/

/-- A JavaScript value produced by `JSON.parse`.  A number literal is kept
exactly as `mantissa * 10 ^ exp10` (see the section comment on doubles).
Objects keep every member in source order; duplicate keys are resolved at
member access, where — as in `JSON.parse` — the last occurrence wins. -/
inductive JsValue where
  | null
  | bool (b : Bool)
  | num (mantissa : Int) (exp10 : Int)
  | str (s : String)
  | arr (elems : List JsValue)
  | obj (fields : List (String × JsValue))
  deriving Repr, BEq, Inhabited

/-- Is a value JavaScript `null`?  Member access on `null` throws a
TypeError. -/
def isNull : JsValue → Bool
  | JsValue.null => true
  | _ => false

/-- JavaScript member access `obj.k` on a `JSON.parse` result that is not
`null`: on an object, the last occurrence of the key wins (as in
`JSON.parse`); on any other non-null value the member is `undefined`
(`none`).  `fetchApi` handles the throwing `null` case before calling
this. -/
def jsMember (v : JsValue) (k : String) : Option JsValue :=
  match v with
  | JsValue.obj fields => (fields.reverse.find? fun p => p.1 == k).map Prod.snd
  | _ => none

/-- Hexadecimal digit test, for `\u` escapes. -/
def isHexDigit (c : Char) : Bool :=
  c.isDigit || decide (97 ≤ c.toNat ∧ c.toNat ≤ 102) ||
    decide (65 ≤ c.toNat ∧ c.toNat ≤ 70)

/-- Value of a hexadecimal digit. -/
def hexVal (c : Char) : Nat :=
  if c.isDigit then c.toNat - 48
  else if decide (97 ≤ c.toNat) then c.toNat - 87
  else c.toNat - 55

/-- Read exactly four hexadecimal digits. -/
def readHex4 : List Char → Option (Nat × List Char)
  | h1 :: h2 :: h3 :: h4 :: rest =>
    if isHexDigit h1 && isHexDigit h2 && isHexDigit h3 && isHexDigit h4 then
      some (((hexVal h1 * 16 + hexVal h2) * 16 + hexVal h3) * 16 + hexVal h4, rest)
    else none
  | _ => none

/-- Read a `\uXXXX` escape (after the `u`).  A high surrogate followed by a
`\uXXXX` low surrogate combines into one scalar, as in a JavaScript string;
a lone surrogate — which `JSON.parse` accepts but a Lean string cannot
hold — becomes U+FFFD (see the section comment). -/
def readUnicodeEscape (cs : List Char) : Option (Char × List Char) :=
  match readHex4 cs with
  | none => none
  | some (code, rest) =>
    if 55296 ≤ code ∧ code ≤ 56319 then
      match rest with
      | b1 :: b2 :: rest2 =>
        if b1 == Char.ofNat 92 && b2 == 'u' then
          match readHex4 rest2 with
          | some (low, rest3) =>
            if 56320 ≤ low ∧ low ≤ 57343 then
              some (Char.ofNat (65536 + (code - 55296) * 1024 + (low - 56320)), rest3)
            else some (Char.ofNat 65533, rest)
          | none => some (Char.ofNat 65533, rest)
        else some (Char.ofNat 65533, rest)
      | _ => some (Char.ofNat 65533, rest)
    else if 56320 ≤ code ∧ code ≤ 57343 then
      some (Char.ofNat 65533, rest)
    else some (Char.ofNat code, rest)

/-- Read one escape sequence (after the backslash).  Exactly the escapes of
the JSON grammar are accepted — `\" \\ \/ \b \f \n \r \t \uXXXX` — and
anything else fails, as in `JSON.parse`. -/
def readEscape : List Char → Option (Char × List Char)
  | [] => none
  | e :: rest =>
    if e == Char.ofNat 34 then some (Char.ofNat 34, rest)
    else if e == Char.ofNat 92 then some (Char.ofNat 92, rest)
    else if e == '/' then some ('/', rest)
    else if e == 'b' then some (Char.ofNat 8, rest)
    else if e == 'f' then some (Char.ofNat 12, rest)
    else if e == 'n' then some ('\n', rest)
    else if e == 'r' then some ('\r', rest)
    else if e == 't' then some ('\t', rest)
    else if e == 'u' then readUnicodeEscape rest
    else none

/-- Parse the remainder of a JSON string literal (after the opening quote)
with `JSON.parse`'s rules: raw control characters below U+0020 are
rejected, and only the JSON escapes are accepted. -/
def parseJsStrRest : Nat → List Char → Option (List Char × List Char)
  | 0, _ => none
  | _ + 1, [] => none
  | fuel + 1, c :: rest =>
    if c == Char.ofNat 34 then some ([], rest)
    else if decide (c.toNat < 32) then none
    else if c == Char.ofNat 92 then
      match readEscape rest with
      | some (ch, rest2) =>
        match parseJsStrRest fuel rest2 with
        | some (content, rest3) => some (ch :: content, rest3)
        | none => none
      | none => none
    else
      match parseJsStrRest fuel rest with
      | some (content, rest2) => some (c :: content, rest2)
      | none => none

/-- Parse a JSON number with the exact grammar of `JSON.parse`:
`-? (0 | [1-9][0-9]*) (. [0-9]+)? ([eE] [+-]? [0-9]+)?` — so `01`, `1.`,
`.5`, `+1` and `1e` are all rejected.  The literal is kept as an exact
decimal `mantissa * 10 ^ exp10`. -/
def parseJsNumber (cs : List Char) : Option (JsValue × List Char) :=
  let signed : Bool × List Char :=
    match cs with
    | c :: rest => if c == '-' then (true, rest) else (false, cs)
    | [] => (false, [])
  match signed.2 with
  | [] => none
  | c :: rest =>
    if ¬ c.isDigit then none
    else
      let intPart : List Char × List Char :=
        if c == '0' then ([c], rest)
        else (c :: rest.takeWhile (·.isDigit), rest.dropWhile (·.isDigit))
      let fracRes : Option (List Char × List Char) :=
        match intPart.2 with
        | p :: rest2 =>
          if p == '.' then
            let fds := rest2.takeWhile (·.isDigit)
            if fds.isEmpty then none else some (fds, rest2.dropWhile (·.isDigit))
          else some ([], intPart.2)
        | [] => some ([], [])
      match fracRes with
      | none => none
      | some (fracDs, cs3) =>
        let expRes : Option (Int × List Char) :=
          match cs3 with
          | x :: rest3 =>
            if x == 'e' || x == 'E' then
              let esigned : Int × List Char :=
                match rest3 with
                | s :: r =>
                  if s == '+' then (1, r)
                  else if s == '-' then (-1, r)
                  else (1, rest3)
                | [] => (1, [])
              let eds := esigned.2.takeWhile (·.isDigit)
              if eds.isEmpty then none
              else some (esigned.1 * (digitsToNat eds : Int),
                esigned.2.dropWhile (·.isDigit))
            else some (0, cs3)
          | [] => some (0, [])
        match expRes with
        | none => none
        | some (expv, cs4) =>
          let mag : Int := (digitsToNat (intPart.1 ++ fracDs) : Int)
          some (JsValue.num (if signed.1 then -mag else mag)
            (expv - (fracDs.length : Int)), cs4)

mutual

/-- Parse one JSON value with `JSON.parse`'s grammar; fuel bounds recursion
depth. -/
def parseJsValue : Nat → List Char → Option (JsValue × List Char)
  | 0, _ => none
  | fuel + 1, cs =>
    match skipWs cs with
    | [] => none
    | c :: rest =>
      if c == 'n' then
        match expectChars ['u', 'l', 'l'] rest with
        | some rest2 => some (JsValue.null, rest2)
        | none => none
      else if c == 't' then
        match expectChars ['r', 'u', 'e'] rest with
        | some rest2 => some (JsValue.bool true, rest2)
        | none => none
      else if c == 'f' then
        match expectChars ['a', 'l', 's', 'e'] rest with
        | some rest2 => some (JsValue.bool false, rest2)
        | none => none
      else if c == Char.ofNat 34 then
        match parseJsStrRest fuel rest with
        | some (content, rest2) => some (JsValue.str (String.mk content), rest2)
        | none => none
      else if c == Char.ofNat 123 then
        match skipWs rest with
        | [] => none
        | d :: rest2 =>
          if d == Char.ofNat 125 then some (JsValue.obj [], rest2)
          else
            match parseJsMembers fuel (d :: rest2) with
            | some (fields, rest3) => some (JsValue.obj fields, rest3)
            | none => none
      else if c == '[' then
        match skipWs rest with
        | [] => none
        | d :: rest2 =>
          if d == ']' then some (JsValue.arr [], rest2)
          else
            match parseJsElems fuel (d :: rest2) with
            | some (elems, rest3) => some (JsValue.arr elems, rest3)
            | none => none
      else parseJsNumber (c :: rest)

/-- Parse one or more object members up to and including the closing brace;
after a comma another member is required, so trailing commas fail as in
`JSON.parse`. -/
def parseJsMembers : Nat → List Char → Option (List (String × JsValue) × List Char)
  | 0, _ => none
  | fuel + 1, cs =>
    match skipWs cs with
    | [] => none
    | c :: rest =>
      if c == Char.ofNat 34 then
        match parseJsStrRest fuel rest with
        | some (key, rest2) =>
          match skipWs rest2 with
          | [] => none
          | c2 :: rest3 =>
            if c2 == ':' then
              match parseJsValue fuel rest3 with
              | some (v, rest4) =>
                match skipWs rest4 with
                | [] => none
                | c3 :: rest5 =>
                  if c3 == ',' then
                    match parseJsMembers fuel rest5 with
                    | some (fields, rest6) =>
                      some ((String.mk key, v) :: fields, rest6)
                    | none => none
                  else if c3 == Char.ofNat 125 then
                    some ([(String.mk key, v)], rest5)
                  else none
              | none => none
            else none
        | none => none
      else none

/-- Parse one or more array elements up to and including the closing
bracket; after a comma another element is required, so trailing commas fail
as in `JSON.parse`. -/
def parseJsElems : Nat → List Char → Option (List JsValue × List Char)
  | 0, _ => none
  | fuel + 1, cs =>
    match parseJsValue fuel cs with
    | some (v, rest) =>
      match skipWs rest with
      | [] => none
      | c :: rest2 =>
        if c == ',' then
          match parseJsElems fuel rest2 with
          | some (vs, rest3) => some (v :: vs, rest3)
          | none => none
        else if c == ']' then some ([v], rest2)
        else none
    | none => none

end

/-- The model of `JSON.parse`: one value with strict JSON grammar, followed
only by whitespace; `none` models the thrown `SyntaxError`. -/
def jsonParse (s : String) : Option JsValue :=
  match parseJsValue (2 * s.length + 4) s.toList with
  | some (v, rest) => if (skipWs rest).isEmpty then some v else none
  | none => none

/-- Strip factors of 10 from a mantissa into the exponent (fuel-bounded by
the digit count). -/
def stripZeros : Nat → Nat → Int → Nat × Int
  | 0, m, e => (m, e)
  | fuel + 1, m, e =>
    if m % 10 = 0 ∧ ¬ m = 0 then stripZeros fuel (m / 10) (e + 1)
    else (m, e)

/-- JavaScript `String(x)` for the number `mantissa * 10 ^ exp10`, following
`Number.prototype.toString`: plain decimal notation between `1e-7` and
`1e21`, exponent notation (`d.ddde+E` / `d.ddde-E`) outside, `-0` printed
as `"0"`.  The value is formatted as an exact decimal; rounding of literals
to doubles (and double overflow/underflow) is outside this model and not
load-bearing for any claim. -/
def jsNumToString (mantissa : Int) (exp10 : Int) : String :=
  if mantissa = 0 then "0"
  else
    let sign := if mantissa < 0 then "-" else ""
    let ds0 := toString mantissa.natAbs
    let stripped := stripZeros ds0.length mantissa.natAbs exp10
    let ds := toString stripped.1
    let e0 := stripped.2
    let d : Int := (ds.length : Int)
    let pointPos : Int := d + e0
    let sciExp : Int := d - 1 + e0
    if 21 ≤ sciExp ∨ sciExp ≤ -7 then
      let mant := if ds.length = 1 then ds else ds.take 1 ++ "." ++ ds.drop 1
      if 0 ≤ sciExp then sign ++ mant ++ "e+" ++ toString sciExp.toNat
      else sign ++ mant ++ "e-" ++ toString (-sciExp).toNat
    else if 0 ≤ e0 then
      sign ++ ds ++ String.mk (List.replicate e0.toNat '0')
    else if 0 < pointPos then
      sign ++ ds.take pointPos.toNat ++ "." ++ ds.drop pointPos.toNat
    else
      sign ++ "0." ++ String.mk (List.replicate (-pointPos).toNat '0') ++ ds

/-- An HTTP response as `fetchApi` observes it: the `ok` flag, the status
code, and the decoded body text. -/
structure HttpResponse where
  ok : Bool
  status : Nat
  body : String
  deriving Repr, DecidableEq

/-- The possible outcomes of `fetchApi`: a parsed success value; a thrown
`ApiError` (with its `message`, `status` and `data` fields,
`src/src/lib/api-client.ts` lines 8-17); the TypeError thrown by
`errorData.detail` when the error body parses to `null` (line 36); or the
`SyntaxError` that `JSON.parse` raises on a non-empty unparsable success
body (line 48). -/
inductive FetchOutcome where
  | success (value : JsValue)
  | apiError (message : String) (status : Nat) (data : JsValue)
  | typeError
  | syntaxError
  deriving Repr, BEq

/-- JavaScript truthiness of a possibly-absent value: `undefined`, `null`,
`false`, `0` (any representation of zero) and `""` are falsy; everything
else is truthy. -/
def jsTruthy : Option JsValue → Bool
  | none => false
  | some JsValue.null => false
  | some (JsValue.bool b) => b
  | some (JsValue.num m _) => decide (¬ m = 0)
  | some (JsValue.str s) => decide (¬ s = "")
  | some (JsValue.arr _) => true
  | some (JsValue.obj _) => true

mutual

/-- JavaScript string coercion `String(v)` of a parsed JSON value, as
applied by the `Error` constructor to a non-string message. -/
def jsToMessage : JsValue → String
  | JsValue.null => "null"
  | JsValue.bool true => "true"
  | JsValue.bool false => "false"
  | JsValue.num m e => jsNumToString m e
  | JsValue.str s => s
  | JsValue.arr xs => jsArrToMessage xs
  | JsValue.obj _ => "[object Object]"

/-- JavaScript array-to-string coercion: elements joined by commas, with
`null` elements rendered empty. -/
def jsArrToMessage : List JsValue → String
  | [] => ""
  | [JsValue.null] => ""
  | [x] => jsToMessage x
  | JsValue.null :: xs => "," ++ jsArrToMessage xs
  | x :: xs => jsToMessage x ++ "," ++ jsArrToMessage xs

end

/-- Embedded from `src/src/lib/api-client.ts` lines 19-49: on a non-ok
response, the body is parsed (`response.json()`, with a parse failure
caught as `{}`); if the parsed `errorData` is `null`, the member access
`errorData.detail` throws a TypeError; otherwise an `ApiError` is thrown
whose message is the JavaScript expression
`errorData.detail || errorData.message || "HTTP <status>"` (string-coerced
by the `Error` constructor).  On an ok response, an empty body yields `{}`
and otherwise the body is `JSON.parse`d, with a parse failure raising a
`SyntaxError`. -/
def fetchApi (response : HttpResponse) : FetchOutcome :=
  if response.ok = false then
    let errorData := (jsonParse response.body).getD (JsValue.obj [])
    if isNull errorData then FetchOutcome.typeError
    else
      let detail := jsMember errorData "detail"
      let message := jsMember errorData "message"
      let msg :=
        if jsTruthy detail then jsToMessage (detail.getD JsValue.null)
        else if jsTruthy message then jsToMessage (message.getD JsValue.null)
        else "HTTP " ++ toString response.status
      FetchOutcome.apiError msg response.status errorData
  else if response.body = "" then
    FetchOutcome.success (JsValue.obj [])
  else
    match jsonParse response.body with
    | some j => FetchOutcome.success j
    | none => FetchOutcome.syntaxError

/-- The error-message rule exactly as claim C10 words it ("message equal to
the body's detail field, else the body's message field, else the string
'HTTP <status>'"), for the refinement comparison against `fetchApi`: an
existing field is used verbatim, absence falls through. -/
def claimedErrorMessage (body : String) (status : Nat) : String :=
  match jsMember ((jsonParse body).getD (JsValue.obj [])) "detail" with
  | some (JsValue.str d) => d
  | _ =>
    match jsMember ((jsonParse body).getD (JsValue.obj [])) "message" with
    | some (JsValue.str m) => m
    | _ => "HTTP " ++ toString status

/-- A present string that is empty falls through to the next alternative;
this is the JavaScript `||` chain over string-valued fields, used to state
the amended C10. -/
def nonemptyOr (x : Option String) (fallback : String) : String :=
  match x with
  | some s => if s = "" then fallback else s
  | none => fallback

/-! ## Concrete example data (spec §8 scenarios) -/

/-- A concrete draft version of prompt "sentiment_analyzer". -/
def exampleV1 : PromptVersion :=
  { id := 1, name := "sentiment_analyzer", version := "1.0.0",
    template_text := "Analyze sentiment: {0}", parent_version_id := none,
    status := VersionStatus.draft }

/-- A concrete draft candidate derived from `exampleV1`. -/
def exampleV2 : PromptVersion :=
  { id := 2, name := "sentiment_analyzer", version := "1.1.0",
    template_text := "Analyze the sentiment carefully: {0}",
    parent_version_id := some 1, status := VersionStatus.draft }

/-- The sentiment output schema from the repository's README quick-start. -/
def exampleSchema : OutputSchema :=
  { schemaType := some SchemaType.object
    required := ["sentiment"]
    properties := [("sentiment", SchemaType.string)]
    enumVals := none
    minimum := none
    maximum := none }

/-- A concrete dataset entry from the README quick-start. -/
def exampleEntry : DatasetEntry :=
  { input_data := "I love this product!"
    expected_output := some "positive"
    rubric := none }

/-- A model-execution collaborator that always returns a well-formed
sentiment object. -/
def exampleExec : String → Option String :=
  fun _ => some "\x7b\"sentiment\": \"positive\"\x7d"

/-- A judge-backend collaborator that always succeeds with fixed scores. -/
def exampleJudge :
    String → String → Option String → Option String → Option JudgeScores :=
  fun _ _ _ _ =>
    some { correctness := 9/10, format := 1, verbosity := 8/10, safety := 1,
           consistency := 9/10, overall := 9/10, feedback := "accurate" }

/-- A judge-backend collaborator that is unreachable for every entry. -/
def failingJudge :
    String → String → Option String → Option String → Option JudgeScores :=
  fun _ _ _ _ => none

/-- A non-ok response body whose `detail` field is the empty string. -/
def emptyDetailBody : String :=
  "\x7b\"detail\": \"\", \"message\": \"boom\"\x7d"

/-- A non-ok response body with only a `message` field. -/
def messageOnlyBody : String :=
  "\x7b\"message\": \"oops\"\x7d"

/-- The default policy configuration documented in `backend/README.md`
(threshold 5%, minimum format pass rate 95%, regression guardrail 2%). -/
def defaultPolicy : PolicyConfig :=
  { improvement_threshold := 5/100
    min_format_pass_rate := 95/100
    regression_guardrail := 2/100 }

/-- Uniform dimension scores, for building example summaries. -/
def uniformDims (q : Rat) : DimScores :=
  { correctness := q, format := q, verbosity := q, safety := q, consistency := q }

/-- Spec §8 scenario baseline: `overall=0.72`. -/
def scenarioBaseline : EvalSummary :=
  { overall_score := 72/100, format_pass_rate := 1, dims := uniformDims (7/10) }

/-- Spec §8 scenario promotable candidate: `overall=0.81`,
`format_pass_rate=0.98`, no per-dimension regression. -/
def scenarioGoodCandidate : EvalSummary :=
  { overall_score := 81/100, format_pass_rate := 98/100, dims := uniformDims (71/100) }

/-- Spec §8 scenario format-regressed candidate: `overall=0.85` but
`format_pass_rate=0.90 < 0.95`. -/
def scenarioFormatCandidate : EvalSummary :=
  { overall_score := 85/100, format_pass_rate := 90/100, dims := uniformDims (71/100) }

/-! ## Theorems -/

/-- The promotion swap never changes which version ids are stored. -/
theorem promoteSwap_ids (s : PromptStore) (nm : String) (cid : Nat) :
    (promoteSwap s nm cid).map PromptVersion.id = s.map PromptVersion.id := by
  simp only [promoteSwap, List.map_map]
  apply List.map_congr_left
  intro pv _
  simp only [Function.comp_apply]
  split_ifs <;> rfl

/-- Reachable stores have pairwise distinct version ids. -/
theorem reachable_ids_nodup {s : PromptStore} (h : Reachable s) :
    (s.map PromptVersion.id).Nodup := by
  induction h with
  | init => simp
  | create s pv _ hdraft hfresh ih =>
    simp only [List.map_cons, List.nodup_cons]
    refine ⟨?_, ih⟩
    simp only [List.mem_map, not_exists]
    rintro q ⟨hq, hqid⟩
    exact hfresh q hq hqid
  | promote s nm cid _ ih =>
    rw [promoteSwap_ids]
    exact ih

/-- After a swap for prompt `nm`, the only possibly-`active` versions of
`nm` are those carrying the promoted candidate id. -/
theorem activeCount_promoteSwap_le (s : PromptStore) (nm : String) (cid : Nat) :
    activeCount (promoteSwap s nm cid) nm ≤
      s.countP fun pv => decide (pv.id = cid) := by
  induction s with
  | nil => simp [activeCount, promoteSwap]
  | cons pv rest ih =>
    simp only [activeCount, promoteSwap, List.map_cons, List.countP_cons] at ih ⊢
    split_ifs with h1 h2 h3 <;> first
      | (simp_all; omega)
      | simp_all

/-- A swap for prompt `nm` does not touch the active versions of any other
prompt name. -/
theorem activeCount_promoteSwap_other (s : PromptStore) (nm nm' : String)
    (cid : Nat) (hne : nm' ≠ nm) :
    activeCount (promoteSwap s nm cid) nm' = activeCount s nm' := by
  induction s with
  | nil => rfl
  | cons pv rest ih =>
    simp only [activeCount, promoteSwap, List.map_cons, List.countP_cons] at ih ⊢
    split_ifs with h1 h2 h3 <;> simp_all

/-- With pairwise distinct ids, at most one stored version carries a given
id. -/
theorem countP_id_le_one {s : PromptStore}
    (hnd : (s.map PromptVersion.id).Nodup) (cid : Nat) :
    (s.countP fun pv => decide (pv.id = cid)) ≤ 1 := by
  induction s with
  | nil => simp
  | cons pv rest ih =>
    simp only [List.map_cons, List.nodup_cons] at hnd
    obtain ⟨hnotin, hnd'⟩ := hnd
    simp only [List.countP_cons]
    by_cases h : pv.id = cid
    · have hzero : rest.countP (fun q => decide (q.id = cid)) = 0 := by
        rw [List.countP_eq_zero]
        intro q hq
        simp only [decide_eq_true_eq]
        intro hqid
        exact hnotin (List.mem_map.mpr ⟨q, hq, by rw [hqid, h]⟩)
      simp [h, hzero]
    · simp only [h, decide_eq_true_eq, if_neg h]
      simpa using ih hnd'

/-- In every branch of the arbiter, `candidates_evaluated` is the number of
successfully evaluated candidates handed to it. -/
theorem decideImprovement_candidates_evaluated (cfg : PolicyConfig)
    (baseline : EvalSummary) (generated : Nat) (cands : List EvalSummary) :
    (decideImprovement cfg baseline generated cands).candidates_evaluated =
      cands.length := by
  rcases hb : bestCandidate cands with _ | best
  · simp only [decideImprovement, hb]
  · simp only [decideImprovement, hb]
    split_ifs <;> rfl

/-- C1 (Promotion monotonicity): whenever the Promotion Arbiter's decision is
`promoted`, the resulting `ImprovementRun` carries a `best_candidate_score`
and that score exceeds the run's `baseline_score` by at least the configured
`improvement_threshold`; contrapositively, a run whose best candidate falls
short of the threshold is never `promoted`. -/
theorem promotion_requires_threshold (cfg : PolicyConfig) (baseline : EvalSummary)
    (generated : Nat) (cands : List EvalSummary)
    (h : (decideImprovement cfg baseline generated cands).promotion_decision =
      PromotionDecision.promoted) :
    ∃ s, (decideImprovement cfg baseline generated cands).best_candidate_score = some s ∧
      cfg.improvement_threshold ≤
        s - (decideImprovement cfg baseline generated cands).baseline_score := by
  rcases hb : bestCandidate cands with _ | best
  · simp [decideImprovement, hb] at h
  · simp only [decideImprovement, hb] at h ⊢
    by_cases h1 : best.overall_score - baseline.overall_score < cfg.improvement_threshold
    · simp [h1] at h
    · by_cases h2 : best.format_pass_rate < cfg.min_format_pass_rate
      · simp [h1, h2] at h
      · by_cases h3 : regressedDims baseline.dims best.dims cfg.regression_guardrail = []
        · refine ⟨best.overall_score, ?_⟩
          simp [h1, h2, h3]
          exact le_of_not_lt h1
        · simp [h1, h2, h3] at h

/-- Witness for C1 at the spec §8 promotable scenario
(baseline 0.72, candidate 0.81 with format pass rate 0.98). -/
theorem promotion_requires_threshold_witness :
    ∃ s, (decideImprovement defaultPolicy scenarioBaseline 3
        [scenarioGoodCandidate]).best_candidate_score = some s ∧
      defaultPolicy.improvement_threshold ≤
        s - (decideImprovement defaultPolicy scenarioBaseline 3
          [scenarioGoodCandidate]).baseline_score :=
  promotion_requires_threshold defaultPolicy scenarioBaseline 3
    [scenarioGoodCandidate]
    (by norm_num [decideImprovement, bestCandidate, regressedDims, defaultPolicy,
      scenarioBaseline, scenarioGoodCandidate, uniformDims])

/-- C3 (Format guardrail dominance): if the run's best candidate has a
format pass rate below `min_format_pass_rate`, the decision is `rejected`,
regardless of whether the score delta met the improvement threshold. -/
theorem format_guardrail_dominates (cfg : PolicyConfig) (baseline : EvalSummary)
    (generated : Nat) (cands : List EvalSummary) (best : EvalSummary)
    (hb : bestCandidate cands = some best)
    (hf : best.format_pass_rate < cfg.min_format_pass_rate) :
    (decideImprovement cfg baseline generated cands).promotion_decision =
      PromotionDecision.rejected := by
  simp only [decideImprovement, hb]
  by_cases h1 : best.overall_score - baseline.overall_score < cfg.improvement_threshold
  · simp [h1]
  · simp [h1, hf]

/-- Witness for C3 at the spec §8 format-regression scenario
(`overall=0.85` beats baseline by more than the threshold, yet
`format_pass_rate=0.90 < 0.95` forces rejection). -/
theorem format_guardrail_dominates_witness :
    (decideImprovement defaultPolicy scenarioBaseline 3
      [scenarioFormatCandidate]).promotion_decision = PromotionDecision.rejected :=
  format_guardrail_dominates defaultPolicy scenarioBaseline 3
    [scenarioFormatCandidate] scenarioFormatCandidate rfl
    (by norm_num [scenarioFormatCandidate, defaultPolicy])

/-- C2 (Single-active invariant): in every store reachable through the legal
operations (creation of fresh draft versions, atomic promotion swaps), at
most one `active` PromptVersion exists per name; moreover every promotion
swap archives, in the same step, each previously `active` version of the
promoted name other than the promoted candidate itself. -/
theorem single_active_invariant (s : PromptStore) (h : Reachable s) (nm : String) :
    activeCount s nm ≤ 1 ∧
      ∀ cid pv, pv ∈ s → pv.name = nm → pv.status = VersionStatus.active →
        pv.id ≠ cid →
        { pv with status := VersionStatus.archived } ∈ promoteSwap s nm cid := by
  constructor
  · induction h with
    | init => simp [activeCount]
    | create s pv _ hdraft _ ih =>
      simpa [activeCount, List.countP_cons, hdraft] using ih
    | promote s nm0 cid hr ih =>
      by_cases hnm : nm = nm0
      · subst hnm
        exact le_trans (activeCount_promoteSwap_le s nm cid)
          (countP_id_le_one (reachable_ids_nodup hr) cid)
      · rw [activeCount_promoteSwap_other s nm0 nm cid hnm]
        exact ih
  · intro cid pv hmem hname hact hid
    refine List.mem_map.mpr ⟨pv, hmem, ?_⟩
    simp [hname, hact, hid]

/-- Witness for C2: create two draft versions of "sentiment_analyzer" and
promote the second; the resulting store is reachable and the theorem applies
to it. -/
theorem single_active_invariant_witness :
    activeCount (promoteSwap [exampleV2, exampleV1] "sentiment_analyzer" 2)
        "sentiment_analyzer" ≤ 1 ∧
      ∀ cid pv,
        pv ∈ promoteSwap [exampleV2, exampleV1] "sentiment_analyzer" 2 →
        pv.name = "sentiment_analyzer" → pv.status = VersionStatus.active →
        pv.id ≠ cid →
        { pv with status := VersionStatus.archived } ∈
          promoteSwap (promoteSwap [exampleV2, exampleV1] "sentiment_analyzer" 2)
            "sentiment_analyzer" cid :=
  single_active_invariant _
    (Reachable.promote _ "sentiment_analyzer" 2
      (Reachable.create _ exampleV2
        (Reachable.create _ exampleV1 Reachable.init rfl (by simp))
        rfl (by simp [exampleV1, exampleV2])))
    "sentiment_analyzer"

/-- C4 (No-viable-candidate handling): a run in which zero candidates were
successfully evaluated terminates normally (the arbiter is a total function
into `ImprovementRun`) with decision `rejected` and reason
"no viable candidate". -/
theorem no_viable_candidate_rejected (cfg : PolicyConfig) (baseline : EvalSummary)
    (generated : Nat) (cands : List EvalSummary)
    (h : (decideImprovement cfg baseline generated cands).candidates_evaluated = 0) :
    (decideImprovement cfg baseline generated cands).promotion_decision =
        PromotionDecision.rejected ∧
      (decideImprovement cfg baseline generated cands).promotion_reason =
        "no viable candidate" := by
  rw [decideImprovement_candidates_evaluated] at h
  have hnil : cands = [] := List.length_eq_zero.mp h
  subst hnil
  exact ⟨rfl, rfl⟩

/-- Witness for C4: the empty candidate list (all generated candidates
failed evaluation). -/
theorem no_viable_candidate_rejected_witness :
    (decideImprovement defaultPolicy scenarioBaseline 3 []).promotion_decision =
        PromotionDecision.rejected ∧
      (decideImprovement defaultPolicy scenarioBaseline 3 []).promotion_reason =
        "no viable candidate" :=
  no_viable_candidate_rejected defaultPolicy scenarioBaseline 3 [] rfl

/-- A count and its complement partition the length. -/
theorem countP_add_countP_not {α : Type} (l : List α) (p : α → Bool) :
    l.countP p + l.countP (fun a => !p a) = l.length := by
  induction l with
  | nil => rfl
  | cons x xs ih =>
    simp only [List.countP_cons, List.length_cons]
    by_cases h : p x = true
    · simp [h]; omega
    · simp [h]; omega

/-- With no output schema, the format dimension is not applicable in any
per-entry outcome. -/
theorem evalEntry_format_score_none (exec : String → Option String)
    (judge : String → String → Option String → Option String → Option JudgeScores)
    (cons : Option OutputConstraints) (e : DatasetEntry) :
    (evalEntry exec judge none cons e).format_score = none := by
  cases hx : exec e.input_data with
  | none => simp [evalEntry, hx]
  | some out =>
    cases hj : judge e.input_data out e.expected_output e.rubric with
    | none => simp [evalEntry, hx, hj]
    | some js => simp [evalEntry, hx, hj]

/-- A dimension that is absent for every entry has an absent aggregate. -/
theorem dimAggregate_none_of_all_none (rs : List EvaluationResult)
    (f : EvaluationResult → Option Rat) (h : ∀ r ∈ rs, f r = none) :
    dimAggregate rs f = none := by
  induction rs with
  | nil => rfl
  | cons r rest ih =>
    have hr : f r = none := h r (List.mem_cons_self r rest)
    have hrest := ih fun x hx => h x (List.mem_cons_of_mem r hx)
    simpa [dimAggregate, meanOfSome, hr, List.filterMap_cons] using hrest

/-- An absent dimension contributes zero weight, not a zero score: it can
be dropped from the contributing set without changing the overall mean. -/
theorem overallFromDims_skip_none (c v s k : Option Rat) :
    overallFromDims [c, none, v, s, k] = overallFromDims [c, v, s, k] := by
  cases c <;> cases v <;> cases s <;> cases k <;> rfl

/-- C9 (Example-count accounting): in every EvaluationRun,
`passed_examples + failed_examples = total_examples`, where
`total_examples` is the number of EvaluationResults of the run. -/
theorem passed_plus_failed_eq_total (exec : String → Option String)
    (judge : String → String → Option String → Option String → Option JudgeScores)
    (sch : Option OutputSchema) (cons : Option OutputConstraints)
    (entries : List DatasetEntry) :
    (runEval exec judge sch cons entries).passed_examples +
        (runEval exec judge sch cons entries).failed_examples =
      (runEval exec judge sch cons entries).total_examples := by
  simp only [runEval]
  exact countP_add_countP_not _ _

/-- C5 (Per-entry pass definition): every EvaluationResult produced by the
Evaluation Runner satisfies
`passed = passed_format_validation AND overall_score >= pass_threshold`
(an absent overall score never meets the threshold); `pass_threshold` is a
fixed policy constant — `runEval` takes no threshold argument — and
`passed` is derived by `evalEntry`, never independently settable. -/
theorem passed_iff_format_and_threshold (exec : String → Option String)
    (judge : String → String → Option String → Option String → Option JudgeScores)
    (sch : Option OutputSchema) (cons : Option OutputConstraints)
    (entries : List DatasetEntry) (r : EvaluationResult)
    (hr : r ∈ (runEval exec judge sch cons entries).results) :
    r.passed = (r.passed_format_validation && meetsPassThreshold r.overall_score) := by
  simp only [runEval, List.mem_map] at hr
  obtain ⟨e, -, rfl⟩ := hr
  cases hx : exec e.input_data with
  | none => simp [evalEntry, hx, meetsPassThreshold]
  | some out =>
    cases hj : judge e.input_data out e.expected_output e.rubric with
    | none => simp [evalEntry, hx, hj, meetsPassThreshold]
    | some js => simp [evalEntry, hx, hj]

/-- Witness for C5 at a concrete entry evaluated with always-succeeding
collaborators. -/
theorem passed_iff_format_and_threshold_witness :
    (evalEntry exampleExec exampleJudge (some exampleSchema) none exampleEntry).passed =
      ((evalEntry exampleExec exampleJudge (some exampleSchema) none
          exampleEntry).passed_format_validation &&
        meetsPassThreshold (evalEntry exampleExec exampleJudge (some exampleSchema)
          none exampleEntry).overall_score) :=
  passed_iff_format_and_threshold exampleExec exampleJudge (some exampleSchema) none
    [exampleEntry] _ (by simp [runEval])

/-- C7 (Judge failure isolation): for an entry whose judging call fails
(after successful execution), the per-entry result has all five dimension
scores absent, `passed = false` and `failure_reason = "judge_unavailable"`;
and the enclosing run still completes over the remaining entries — every
entry of the run, the failed one included, yields exactly one result. -/
theorem judge_unavailable_isolated (exec : String → Option String)
    (judge : String → String → Option String → Option String → Option JudgeScores)
    (sch : Option OutputSchema) (cons : Option OutputConstraints)
    (entries : List DatasetEntry) (e : DatasetEntry) (out : String)
    (hmem : e ∈ entries)
    (hexec : exec e.input_data = some out)
    (hjudge : judge e.input_data out e.expected_output e.rubric = none) :
    ((evalEntry exec judge sch cons e).correctness_score = none ∧
      (evalEntry exec judge sch cons e).format_score = none ∧
      (evalEntry exec judge sch cons e).verbosity_score = none ∧
      (evalEntry exec judge sch cons e).safety_score = none ∧
      (evalEntry exec judge sch cons e).consistency_score = none ∧
      (evalEntry exec judge sch cons e).passed = false ∧
      (evalEntry exec judge sch cons e).failure_reason = some "judge_unavailable") ∧
      (runEval exec judge sch cons entries).results.length = entries.length ∧
      evalEntry exec judge sch cons e ∈ (runEval exec judge sch cons entries).results := by
  refine ⟨?_, ?_, ?_⟩
  · simp [evalEntry, hexec, hjudge]
  · simp [runEval]
  · simp only [runEval]
    exact List.mem_map_of_mem _ hmem

/-- Witness for C7: a concrete one-entry run whose judge backend is
unreachable. -/
theorem judge_unavailable_isolated_witness :
    ((evalEntry exampleExec failingJudge (some exampleSchema) none
        exampleEntry).correctness_score = none ∧
      (evalEntry exampleExec failingJudge (some exampleSchema) none
        exampleEntry).format_score = none ∧
      (evalEntry exampleExec failingJudge (some exampleSchema) none
        exampleEntry).verbosity_score = none ∧
      (evalEntry exampleExec failingJudge (some exampleSchema) none
        exampleEntry).safety_score = none ∧
      (evalEntry exampleExec failingJudge (some exampleSchema) none
        exampleEntry).consistency_score = none ∧
      (evalEntry exampleExec failingJudge (some exampleSchema) none
        exampleEntry).passed = false ∧
      (evalEntry exampleExec failingJudge (some exampleSchema) none
        exampleEntry).failure_reason = some "judge_unavailable") ∧
      (runEval exampleExec failingJudge (some exampleSchema) none
        [exampleEntry]).results.length = [exampleEntry].length ∧
      evalEntry exampleExec failingJudge (some exampleSchema) none exampleEntry ∈
        (runEval exampleExec failingJudge (some exampleSchema) none
          [exampleEntry]).results :=
  judge_unavailable_isolated exampleExec failingJudge (some exampleSchema) none
    [exampleEntry] exampleEntry "\x7b\"sentiment\": \"positive\"\x7d"
    (List.mem_singleton.mpr rfl) rfl rfl

/-- C8 (Format Validator totality): `validate` is a total function — when
`output_schema` is absent it returns `passed = true`; on malformed JSON
(with a schema present, per spec §4.1's precedence) it returns
`passed = false` together with a descriptive, non-empty parse-error string
rather than raising; and a run evaluated without a schema has a
not-applicable format dimension that contributes zero weight (not a zero
score) to the run's overall aggregate. -/
theorem format_validator_contract (out : String) (sch : OutputSchema)
    (cons : Option OutputConstraints) :
    (validate out none cons).1 = true ∧
      (parseJson out = none →
        (validate out (some sch) cons).1 = false ∧
          ∃ msg, (validate out (some sch) cons).2 = some msg ∧ ¬ msg = "") ∧
      ∀ (exec : String → Option String)
        (judge : String → String → Option String → Option String → Option JudgeScores)
        (cons2 : Option OutputConstraints) (entries : List DatasetEntry),
        (runEval exec judge none cons2 entries).overall_score =
          overallFromDims
            [dimAggregate (runEval exec judge none cons2 entries).results
               (·.correctness_score),
             dimAggregate (runEval exec judge none cons2 entries).results
               (·.verbosity_score),
             dimAggregate (runEval exec judge none cons2 entries).results
               (·.safety_score),
             dimAggregate (runEval exec judge none cons2 entries).results
               (·.consistency_score)] := by
  refine ⟨rfl, ?_, ?_⟩
  · intro hp
    unfold validate
    rw [hp]
    refine ⟨rfl, "malformed JSON in actual_output: " ++ out, rfl, ?_⟩
    intro hcontr
    have hlen := congrArg String.length hcontr
    rw [String.length_append] at hlen
    have hpos : 0 < ("malformed JSON in actual_output: " : String).length := by decide
    have hz : ("" : String).length = 0 := rfl
    omega
  · intro exec judge cons2 entries
    have hfmt : dimAggregate (entries.map (evalEntry exec judge none cons2))
        (·.format_score) = none := by
      refine dimAggregate_none_of_all_none _ _ ?_
      intro r hr
      simp only [List.mem_map] at hr
      obtain ⟨e, -, rfl⟩ := hr
      exact evalEntry_format_score_none exec judge cons2 e
    simp only [runEval]
    rw [hfmt]
    exact overallFromDims_skip_none _ _ _ _

/-- Witness for C8: the malformed output "not json" against the README's
sentiment schema, and a schema-less one-entry run with an unreachable
judge. -/
theorem format_validator_contract_witness :
    (validate "not json" none none).1 = true ∧
      ((validate "not json" (some exampleSchema) none).1 = false ∧
        ∃ msg, (validate "not json" (some exampleSchema) none).2 = some msg ∧
          ¬ msg = "") ∧
      (runEval exampleExec failingJudge none none [exampleEntry]).overall_score =
        overallFromDims
          [dimAggregate (runEval exampleExec failingJudge none none
             [exampleEntry]).results (·.correctness_score),
           dimAggregate (runEval exampleExec failingJudge none none
             [exampleEntry]).results (·.verbosity_score),
           dimAggregate (runEval exampleExec failingJudge none none
             [exampleEntry]).results (·.safety_score),
           dimAggregate (runEval exampleExec failingJudge none none
             [exampleEntry]).results (·.consistency_score)] :=
  ⟨(format_validator_contract "not json" exampleSchema none).1,
   (format_validator_contract "not json" exampleSchema none).2.1 rfl,
   (format_validator_contract "not json" exampleSchema none).2.2 exampleExec
     failingJudge none [exampleEntry]⟩

/-- C6 (Diff symmetric-invertibility): for every pair of PromptVersions,
`diff(a,b).added_lines = diff(b,a).removed_lines` and symmetrically
`diff(a,b).removed_lines = diff(b,a).added_lines`. -/
theorem diff_symmetric_invertible (a b : PromptVersion) :
    (computeDiff a b).added_lines = (computeDiff b a).removed_lines ∧
      (computeDiff a b).removed_lines = (computeDiff b a).added_lines :=
  ⟨rfl, rfl⟩

/-- The `JSON.parse` model agrees with `JSON.parse` on representative
inputs: fractional and exponent numerals, `\u`, `\b` and `\f` escapes,
rejection of trailing commas, leading zeros and bare fraction points, and
last-occurrence resolution of duplicate keys; and number string coercion
matches `String(1.5)`. -/
theorem jsonParse_agrees_on_samples :
    jsonParse "\x7b\"detail\": 1.5\x7d" =
        some (JsValue.obj [("detail", JsValue.num 15 (-1))]) ∧
      jsonParse "2e-3" = some (JsValue.num 2 (-3)) ∧
      jsonParse "\"\\u0041\\b\\f\"" = some (JsValue.str "A\x08\x0C") ∧
      jsonParse "[1,]" = none ∧
      jsonParse "01" = none ∧
      jsonParse "1." = none ∧
      jsonParse "\x7b\"a\": 1, \"a\": 2\x7d" =
        some (JsValue.obj [("a", JsValue.num 1 0), ("a", JsValue.num 2 0)]) ∧
      jsMember ((jsonParse "\x7b\"a\": 1, \"a\": 2\x7d").getD (JsValue.obj []))
        "a" = some (JsValue.num 2 0) ∧
      jsNumToString 15 (-1) = "1.5" :=
  ⟨rfl, rfl, rfl, rfl, rfl, rfl, rfl, rfl, rfl⟩

/-- A numeric `detail` field is truthy and is string-coerced by the `Error`
constructor, as in the source: the body with `detail` 1.5 yields an
ApiError with message "1.5". -/
theorem fetchApi_numeric_detail :
    fetchApi { ok := false, status := 500, body := "\x7b\"detail\": 1.5\x7d" } =
      FetchOutcome.apiError "1.5" 500
        (JsValue.obj [("detail", JsValue.num 15 (-1))]) := rfl

/-- On an ok response `fetchApi` never throws an `ApiError` (it returns the
parsed value or raises `SyntaxError`). -/
theorem fetchApi_ok_not_apiError (resp : HttpResponse) (hok : ¬ resp.ok = false)
    (m : String) (s : Nat) (d : JsValue) :
    ¬ fetchApi resp = FetchOutcome.apiError m s d := by
  intro he
  unfold fetchApi at he
  rw [if_neg hok] at he
  by_cases hb : resp.body = ""
  · rw [if_pos hb] at he
    exact FetchOutcome.noConfusion he
  · rw [if_neg hb] at he
    cases hp : jsonParse resp.body with
    | some j =>
      rw [hp] at he
      exact FetchOutcome.noConfusion he
    | none =>
      rw [hp] at he
      exact FetchOutcome.noConfusion he

/-- C10 counterexample, at two concrete non-ok responses.  (i) For the body
`\x7b"detail": "", "message": "boom"\x7d` the `detail` field exists (the
empty string) yet the thrown ApiError's message is "boom" — the `message`
field — because the JavaScript `||` chain skips falsy values; the claim's
literal rule (`claimedErrorMessage`) gives `""`.  (ii) For the body "null"
the response is not ok yet `fetchApi` throws a TypeError (member access on
`null`), not an ApiError, refuting "throws an ApiError exactly when
`response.ok` is false". -/
theorem fetchApi_detail_verbatim_counterexample :
    (fetchApi { ok := false, status := 500, body := emptyDetailBody } =
        FetchOutcome.apiError "boom" 500
          (JsValue.obj [("detail", JsValue.str ""), ("message", JsValue.str "boom")]) ∧
      claimedErrorMessage emptyDetailBody 500 = "" ∧
      ¬ ("boom" : String) = "") ∧
      fetchApi { ok := false, status := 500, body := "null" } =
          FetchOutcome.typeError ∧
      ∀ m s d, ¬ FetchOutcome.typeError = FetchOutcome.apiError m s d :=
  ⟨⟨rfl, rfl, by decide⟩, rfl, fun m s d h => FetchOutcome.noConfusion h⟩

/-- C10 as amended: `fetchApi` throws an ApiError exactly when
`response.ok` is false and the error body does not parse to JSON `null`
(on a `null` body the member access `errorData.detail` throws a TypeError
instead); the error's status field equals the HTTP status code; its message
is the body's `detail` field when that is a non-empty string, else the
body's `message` field when that is a non-empty string, else
`"HTTP <status>"` (JavaScript truthiness: a present-but-empty string falls
through); and a successful response with an empty body yields the empty
object rather than a parse failure. -/
theorem fetchApi_contract (resp : HttpResponse) :
    ((∃ m s d, fetchApi resp = FetchOutcome.apiError m s d) ↔
        (resp.ok = false ∧
          isNull ((jsonParse resp.body).getD (JsValue.obj [])) = false)) ∧
      (∀ m s d, fetchApi resp = FetchOutcome.apiError m s d → s = resp.status) ∧
      (resp.ok = false →
        isNull ((jsonParse resp.body).getD (JsValue.obj [])) = true →
        fetchApi resp = FetchOutcome.typeError) ∧
      (resp.ok = false →
        isNull ((jsonParse resp.body).getD (JsValue.obj [])) = false →
        ∀ dOpt mOpt : Option String,
          jsMember ((jsonParse resp.body).getD (JsValue.obj [])) "detail" =
            dOpt.map JsValue.str →
          jsMember ((jsonParse resp.body).getD (JsValue.obj [])) "message" =
            mOpt.map JsValue.str →
          fetchApi resp =
            FetchOutcome.apiError
              (nonemptyOr dOpt (nonemptyOr mOpt ("HTTP " ++ toString resp.status)))
              resp.status ((jsonParse resp.body).getD (JsValue.obj []))) ∧
      (resp.ok = true → resp.body = "" →
        fetchApi resp = FetchOutcome.success (JsValue.obj [])) := by
  by_cases hok : resp.ok = false
  · cases hnull : isNull ((jsonParse resp.body).getD (JsValue.obj [])) with
    | true =>
      have hfe : fetchApi resp = FetchOutcome.typeError := by
        unfold fetchApi
        rw [if_pos hok, if_pos hnull]
      refine ⟨⟨?_, ?_⟩, ?_, ?_, ?_, ?_⟩
      · rintro ⟨m, s, d, he⟩
        rw [hfe] at he
        exact FetchOutcome.noConfusion he
      · rintro ⟨-, hnn⟩
        exact Bool.noConfusion hnn
      · intro m s d he
        rw [hfe] at he
        exact FetchOutcome.noConfusion he
      · intro _ _
        exact hfe
      · intro _ hnn
        exact Bool.noConfusion hnn
      · intro h1 _
        rw [hok] at h1
        exact Bool.noConfusion h1
    | false =>
      refine ⟨⟨?_, ?_⟩, ?_, ?_, ?_, ?_⟩
      · intro _
        exact ⟨hok, rfl⟩
      · intro _
        unfold fetchApi
        rw [if_pos hok, if_neg (by simp [hnull])]
        exact ⟨_, _, _, rfl⟩
      · intro m s d he
        unfold fetchApi at he
        rw [if_pos hok, if_neg (by simp [hnull])] at he
        exact ((FetchOutcome.apiError.injEq _ _ _ _ _ _).mp he).2.1.symm
      · intro _ hcontr
        exact Bool.noConfusion hcontr
      · intro _ _ dOpt mOpt hD hM
        unfold fetchApi
        rw [if_pos hok, if_neg (by simp [hnull])]
        simp only [hD, hM]
        cases dOpt with
        | some d =>
          by_cases hd : d = ""
          · subst hd
            cases mOpt with
            | some m =>
              by_cases hm : m = ""
              · subst hm
                simp [nonemptyOr, jsTruthy]
              · simp [nonemptyOr, jsTruthy, hm, jsToMessage]
            | none =>
              simp [nonemptyOr, jsTruthy]
          · simp [nonemptyOr, jsTruthy, hd, jsToMessage]
        | none =>
          cases mOpt with
          | some m =>
            by_cases hm : m = ""
            · subst hm
              simp [nonemptyOr, jsTruthy]
            · simp [nonemptyOr, jsTruthy, hm, jsToMessage]
          | none =>
            simp [nonemptyOr, jsTruthy]
      · intro h1 _
        rw [hok] at h1
        exact Bool.noConfusion h1
  · refine ⟨⟨?_, ?_⟩, ?_, ?_, ?_, ?_⟩
    · rintro ⟨m, s, d, he⟩
      exact absurd he (fetchApi_ok_not_apiError resp hok m s d)
    · rintro ⟨hcontr, -⟩
      exact absurd hcontr hok
    · intro m s d he
      exact absurd he (fetchApi_ok_not_apiError resp hok m s d)
    · intro hcontr _
      exact absurd hcontr hok
    · intro hcontr _
      exact absurd hcontr hok
    · intro _ hb
      unfold fetchApi
      rw [if_neg hok, if_pos hb]

/-- Witness for C10 (amended) at a concrete non-ok response whose body has
only a `message` field: the empty-`detail` chain ends at "oops". -/
theorem fetchApi_contract_witness :
    fetchApi { ok := false, status := 404, body := messageOnlyBody } =
      FetchOutcome.apiError "oops" 404
        (JsValue.obj [("message", JsValue.str "oops")]) :=
  (fetchApi_contract { ok := false, status := 404, body := messageOnlyBody
    }).2.2.2.1 rfl rfl none (some "oops") rfl rfl
end PromptOps
